import Mathlib

/-!
Shallow embedding of the "City of Syndicates" backend (src/main.py) and
verification of its specification claims.

Modelling conventions:
* Database rows become Lean structures; the persistent store is a `State`
  holding the players table, the inventory table, and the next auto-increment
  primary keys.
* `money` is a `Float` column mutated only by integer additions and
  subtractions in the magnitudes used here; it is modelled exactly as `ℚ`.
* Randomness (`random.choice`, `random.random`, `random.randint`) is passed
  in as explicit parameters: the crime index, the success roll, and the
  drawn reward.
* Password hashing (`passlib` bcrypt) is external to the repository; the
  handlers are parametric in the hash and verify functions.
* Each HTTP handler becomes a function `State → State × Except HTTPError α`:
  the returned state is the persisted database state (a `raise` before
  `db.commit()` leaves the store unchanged), the `Except` value is the
  JSON response or the raised `HTTPException`.
-/

namespace CityOfSyndicates

/-- A row of the `players` table (class `PlayerDB` in src/main.py). -/
structure Player where
  id : Nat
  username : String
  password : String
  money : ℚ
  energy : Int
  max_energy : Int
  level : Int
  experience : Int
  strength : Int
  agility : Int
  intelligence : Int
  charisma : Int
  wins : Int
  losses : Int
deriving Repr, DecidableEq

/-- A row of the `inventory` table (class `InventoryDB` in src/main.py). -/
structure InventoryRow where
  id : Nat
  player_id : Nat
  item_type : String
  item_id : String
  equipped : Bool
deriving Repr, DecidableEq

/-- A shop catalog entry (the fields the handlers read: name and price). -/
structure Item where
  name : String
  price : Int
deriving Repr, DecidableEq

/-- The `WEAPONS` dict of src/main.py, as a lookup function. -/
def WEAPONS : String → Option Item
  | "brass_knuckles" => some ⟨"Brass Knuckles", 200⟩
  | "pistol" => some ⟨"Pistol", 2000⟩
  | _ => none

/-- The `ARMOR` dict of src/main.py, as a lookup function. -/
def ARMOR : String → Option Item
  | "leather_jacket" => some ⟨"Leather Jacket", 300⟩
  | _ => none

/-- A crime catalog entry: energy cost, inclusive reward range, experience
reward, success probability. -/
structure Crime where
  name : String
  energy : Int
  rewardLo : Int
  rewardHi : Int
  exp : Int
  success : ℚ
deriving Repr, DecidableEq

/-- The `CRIMES` list of src/main.py. -/
def CRIMES : List Crime :=
  [⟨"Pickpocket", 10, 20, 50, 5, 9/10⟩,
   ⟨"Bank Heist", 60, 500, 1000, 50, 2/5⟩]

/-- The persistent database state: both tables plus the next auto-increment
primary key of each. -/
structure State where
  players : List Player
  inventory : List InventoryRow
  nextPlayerId : Nat
  nextInvId : Nat
deriving Repr, DecidableEq

/-- The empty database produced by `Base.metadata.create_all`. -/
def initState : State :=
  { players := [], inventory := [], nextPlayerId := 1, nextInvId := 1 }

/-- An `HTTPException(code, detail)`. -/
structure HTTPError where
  code : Nat
  detail : String
deriving Repr, DecidableEq

/-- Outcome of the `/crime` endpoint. -/
inductive CrimeResult where
  | success (reward : Int)
  | failed
deriving Repr, DecidableEq

/-- A `PlayerDB` row built with only username and password given: every
other column takes its declared default. -/
def newPlayer (id : Nat) (username passwordHash : String) : Player :=
  { id := id, username := username, password := passwordHash,
    money := 100, energy := 100, max_energy := 100, level := 1,
    experience := 0, strength := 1, agility := 1, intelligence := 1,
    charisma := 1, wins := 0, losses := 0 }

/-- `get_player`: first row whose username matches, `none` instead of the
404 raise. -/
def get_player (username : String) (s : State) : Option Player :=
  s.players.find? (fun p => p.username == username)

/-- Persisting a mutated ORM player object: the row with the same primary
key is replaced. -/
def setPlayer (s : State) (p : Player) : State :=
  { s with players := s.players.map (fun q => if q.id == p.id then p else q) }

/-- `add_exp`: add experience, recompute `1 + experience // 100` (Python
floor division), and on a level-up raise `max_energy` by 10. -/
def add_exp (p : Player) (amount : Int) : Player :=
  let p1 := { p with experience := p.experience + amount }
  let new_level := 1 + Int.fdiv p1.experience 100
  if new_level > p1.level then
    { p1 with level := new_level, max_energy := p1.max_energy + 10 }
  else p1

/-- The `/register` handler, parametric in the hash function. -/
def register (hashF : String → String) (username password : String)
    (s : State) : State × Except HTTPError String :=
  if (s.players.find? (fun p => p.username == username)).isSome then
    (s, .error ⟨400, "Username taken"⟩)
  else
    let np := newPlayer s.nextPlayerId username (hashF password)
    let row : InventoryRow :=
      ⟨s.nextInvId, np.id, "weapon", "brass_knuckles", true⟩
    ({ players := s.players ++ [np], inventory := s.inventory ++ [row],
       nextPlayerId := s.nextPlayerId + 1, nextInvId := s.nextInvId + 1 },
     .ok "Registered")

/-- The `/login` handler, parametric in the verify function. -/
def login (verifyF : String → String → Bool) (username password : String)
    (s : State) : State × Except HTTPError String :=
  match get_player username s with
  | none => (s, .error ⟨404, "Player not found"⟩)
  | some user =>
    if verifyF password user.password then (s, .ok "Login successful")
    else (s, .error ⟨400, "Invalid credentials"⟩)

/-- The `/crime` handler. `choice` is the index drawn by `random.choice`,
`roll` the value of `random.random()`, `reward` the value drawn by
`random.randint` over the crime's reward range. -/
def crime (username : String) (choice : Fin CRIMES.length) (roll : ℚ)
    (reward : Int) (s : State) : State × Except HTTPError CrimeResult :=
  match get_player username s with
  | none => (s, .error ⟨404, "Player not found"⟩)
  | some user =>
    let cr := CRIMES.get choice
    if user.energy < cr.energy then (s, .error ⟨400, "Not enough energy"⟩)
    else
      let user1 := { user with energy := user.energy - cr.energy }
      if roll ≤ cr.success then
        let user2 := { user1 with money := user1.money + reward }
        let user3 := { user2 with wins := user2.wins + 1 }
        let user4 := add_exp user3 cr.exp
        (setPlayer s user4, .ok (.success reward))
      else
        (setPlayer s { user1 with losses := user1.losses + 1 }, .ok .failed)

/-- The `/rest` handler. -/
def rest (username : String) (s : State) : State × Except HTTPError Int :=
  match get_player username s with
  | none => (s, .error ⟨404, "Player not found"⟩)
  | some user =>
    let user1 := { user with energy := min user.max_energy (user.energy + 40) }
    (setPlayer s user1, .ok user1.energy)

/-- The `/armory/buy` handler. -/
def buy_item (username item_id item_type : String) (s : State) :
    State × Except HTTPError String :=
  match get_player username s with
  | none => (s, .error ⟨404, "Player not found"⟩)
  | some player =>
    match (if item_type == "weapon" then WEAPONS item_id else ARMOR item_id) with
    | none => (s, .error ⟨404, "Item not found"⟩)
    | some item =>
      if player.money < (item.price : ℚ) then
        (s, .error ⟨400, "Not enough money"⟩)
      else
        let player1 := { player with money := player.money - item.price }
        let inv1 := s.inventory.map (fun r =>
          if r.player_id == player.id && r.item_type == item_type then
            { r with equipped := false }
          else r)
        let row : InventoryRow :=
          ⟨s.nextInvId, player.id, item_type, item_id, true⟩
        let s1 := { s with inventory := inv1 ++ [row], nextInvId := s.nextInvId + 1 }
        (setPlayer s1 player1, .ok ("Bought " ++ item.name))

/-- States reachable from the empty database by the five state-touching
endpoints (with arbitrary request data and random draws). -/
inductive Reachable : State → Prop where
  | init : Reachable initState
  | step_register (hashF : String → String) (u pw : String) {s : State} :
      Reachable s → Reachable (register hashF u pw s).1
  | step_login (verifyF : String → String → Bool) (u pw : String) {s : State} :
      Reachable s → Reachable (login verifyF u pw s).1
  | step_crime (u : String) (c : Fin CRIMES.length) (roll : ℚ) (r : Int)
      {s : State} : Reachable s → Reachable (crime u c roll r s).1
  | step_rest (u : String) {s : State} :
      Reachable s → Reachable (rest u s).1
  | step_buy (u iid it : String) {s : State} :
      Reachable s → Reachable (buy_item u iid it s).1

/-- Does this inventory row belong to player `pid`, carry item type `t`,
and stand equipped? -/
def equippedOf (pid : Nat) (t : String) (r : InventoryRow) : Bool :=
  r.player_id == pid && r.item_type == t && r.equipped

/-- Number of equipped inventory rows a given player has of a given item
type. -/
def equipCount (s : State) (pid : Nat) (t : String) : Nat :=
  (s.inventory.filter (equippedOf pid t)).length

/-- The equip-slot invariant: at most one equipped item per player per
item type. -/
def EquipInv (s : State) : Prop :=
  ∀ pid t, equipCount s pid t ≤ 1

/-- The energy invariant: every player's energy lies in `[0, max_energy]`. -/
def EnergyInv (s : State) : Prop :=
  ∀ p ∈ s.players, 0 ≤ p.energy ∧ p.energy ≤ p.max_energy

/-- Primary keys already handed out are below the auto-increment counter. -/
def IdInv (s : State) : Prop :=
  (∀ p ∈ s.players, p.id < s.nextPlayerId) ∧
  (∀ r ∈ s.inventory, r.player_id < s.nextPlayerId)

/-- The combined state invariant. -/
def Inv (s : State) : Prop := IdInv s ∧ EnergyInv s ∧ EquipInv s

/-- A concrete one-player database used to instantiate theorems. -/
def wState : State :=
  { players := [newPlayer 1 "alice" "h"],
    inventory := [⟨1, 1, "weapon", "brass_knuckles", true⟩],
    nextPlayerId := 2, nextInvId := 2 }

/-- Index of the "Pickpocket" entry of `CRIMES`. -/
def pickpocketIdx : Fin CRIMES.length := ⟨0, by decide⟩

/-- A concrete database whose single player can afford every catalog
item. -/
def wState2 : State :=
  { players := [{ newPlayer 1 "alice" "h" with money := 500 }],
    inventory := [⟨1, 1, "weapon", "brass_knuckles", true⟩],
    nextPlayerId := 2, nextInvId := 2 }

/-! ### Frame lemmas for `add_exp` and `setPlayer` -/

lemma add_exp_energy (p : Player) (a : Int) : (add_exp p a).energy = p.energy := by
  simp only [add_exp]; split <;> rfl

lemma add_exp_money (p : Player) (a : Int) : (add_exp p a).money = p.money := by
  simp only [add_exp]; split <;> rfl

lemma add_exp_wins (p : Player) (a : Int) : (add_exp p a).wins = p.wins := by
  simp only [add_exp]; split <;> rfl

lemma add_exp_losses (p : Player) (a : Int) : (add_exp p a).losses = p.losses := by
  simp only [add_exp]; split <;> rfl

lemma add_exp_id (p : Player) (a : Int) : (add_exp p a).id = p.id := by
  simp only [add_exp]; split <;> rfl

lemma add_exp_experience (p : Player) (a : Int) :
    (add_exp p a).experience = p.experience + a := by
  simp only [add_exp]; split <;> rfl

lemma add_exp_max_energy_le (p : Player) (a : Int) :
    p.max_energy ≤ (add_exp p a).max_energy := by
  simp only [add_exp]; split <;> simp

lemma add_exp_level_le (p : Player) (a : Int) :
    p.level ≤ (add_exp p a).level := by
  simp only [add_exp]; split
  · next h => exact le_of_lt h
  · simp

lemma setPlayer_inventory (s : State) (p : Player) :
    (setPlayer s p).inventory = s.inventory := rfl

lemma setPlayer_nextPlayerId (s : State) (p : Player) :
    (setPlayer s p).nextPlayerId = s.nextPlayerId := rfl

lemma login_fst (verifyF : String → String → Bool) (u pw : String) (s : State) :
    (login verifyF u pw s).1 = s := by
  unfold login
  cases get_player u s with
  | none => rfl
  | some user => dsimp; split <;> rfl

lemma get_player_mem {u : String} {s : State} {user : Player}
    (hg : get_player u s = some user) : user ∈ s.players :=
  List.mem_of_find?_eq_some hg

/-! ### Evaluation lemmas: one equation per branch of each handler -/

lemma register_taken (hashF : String → String) (u pw : String) (s : State)
    (hc : (s.players.find? (fun p => p.username == u)).isSome = true) :
    register hashF u pw s = (s, .error ⟨400, "Username taken"⟩) := by
  unfold register; rw [if_pos hc]

lemma register_free (hashF : String → String) (u pw : String) (s : State)
    (hc : ¬ (s.players.find? (fun p => p.username == u)).isSome = true) :
    register hashF u pw s =
      (⟨s.players ++ [newPlayer s.nextPlayerId u (hashF pw)],
        s.inventory
          ++ [⟨s.nextInvId, s.nextPlayerId, "weapon", "brass_knuckles", true⟩],
        s.nextPlayerId + 1, s.nextInvId + 1⟩,
       .ok "Registered") := by
  unfold register; rw [if_neg hc]; rfl

lemma crime_notfound (u : String) (c : Fin CRIMES.length) (roll : ℚ) (r : Int)
    (s : State) (hg : get_player u s = none) :
    crime u c roll r s = (s, .error ⟨404, "Player not found"⟩) := by
  unfold crime; rw [hg]

lemma crime_noenergy (u : String) (c : Fin CRIMES.length) (roll : ℚ) (r : Int)
    (s : State) (user : Player) (hg : get_player u s = some user)
    (he : user.energy < (CRIMES.get c).energy) :
    crime u c roll r s = (s, .error ⟨400, "Not enough energy"⟩) := by
  simp only [crime, hg]; rw [if_pos he]

lemma crime_success_eq (u : String) (c : Fin CRIMES.length) (roll : ℚ)
    (r : Int) (s : State) (user : Player) (hg : get_player u s = some user)
    (he : ¬ user.energy < (CRIMES.get c).energy)
    (hroll : roll ≤ (CRIMES.get c).success) :
    crime u c roll r s =
      (setPlayer s (add_exp { user with
          energy := user.energy - (CRIMES.get c).energy,
          money := user.money + r,
          wins := user.wins + 1 } (CRIMES.get c).exp),
       .ok (.success r)) := by
  simp only [crime, hg]; rw [if_neg he, if_pos hroll]

lemma crime_failed_eq (u : String) (c : Fin CRIMES.length) (roll : ℚ)
    (r : Int) (s : State) (user : Player) (hg : get_player u s = some user)
    (he : ¬ user.energy < (CRIMES.get c).energy)
    (hroll : ¬ roll ≤ (CRIMES.get c).success) :
    crime u c roll r s =
      (setPlayer s { user with
          energy := user.energy - (CRIMES.get c).energy,
          losses := user.losses + 1 },
       .ok .failed) := by
  simp only [crime, hg]; rw [if_neg he, if_neg hroll]

lemma rest_notfound (u : String) (s : State) (hg : get_player u s = none) :
    rest u s = (s, .error ⟨404, "Player not found"⟩) := by
  unfold rest; rw [hg]

lemma rest_eq (u : String) (s : State) (user : Player)
    (hg : get_player u s = some user) :
    rest u s =
      (setPlayer s { user with
          energy := min user.max_energy (user.energy + 40) },
       .ok (min user.max_energy (user.energy + 40))) := by
  unfold rest; rw [hg]

lemma buy_notfound (u iid it : String) (s : State)
    (hg : get_player u s = none) :
    buy_item u iid it s = (s, .error ⟨404, "Player not found"⟩) := by
  unfold buy_item; rw [hg]

lemma buy_noitem (u iid it : String) (s : State) (player : Player)
    (hg : get_player u s = some player)
    (hi : (if it == "weapon" then WEAPONS iid else ARMOR iid) = none) :
    buy_item u iid it s = (s, .error ⟨404, "Item not found"⟩) := by
  simp only [buy_item, hg, hi]

lemma buy_nomoney (u iid it : String) (s : State) (player : Player)
    (item : Item) (hg : get_player u s = some player)
    (hi : (if it == "weapon" then WEAPONS iid else ARMOR iid) = some item)
    (hm : player.money < (item.price : ℚ)) :
    buy_item u iid it s = (s, .error ⟨400, "Not enough money"⟩) := by
  simp only [buy_item, hg, hi]; rw [if_pos hm]

/-! ### C5: the rest action -/

/-- C5: `rest` sets the player's energy to `min(max_energy, energy + 40)`,
returns the new energy value, and changes no other player field nor the
inventory. -/
theorem rest_spec (u : String) (s : State) (user : Player)
    (hfind : get_player u s = some user) :
    ∃ p1,
      rest u s = (setPlayer s p1, .ok (min user.max_energy (user.energy + 40)))
      ∧ p1.energy = min user.max_energy (user.energy + 40)
      ∧ p1.id = user.id ∧ p1.username = user.username
      ∧ p1.password = user.password
      ∧ p1.money = user.money ∧ p1.experience = user.experience
      ∧ p1.level = user.level ∧ p1.max_energy = user.max_energy
      ∧ p1.strength = user.strength ∧ p1.agility = user.agility
      ∧ p1.intelligence = user.intelligence ∧ p1.charisma = user.charisma
      ∧ p1.wins = user.wins ∧ p1.losses = user.losses
      ∧ (rest u s).1.inventory = s.inventory := by
  refine ⟨{ user with energy := min user.max_energy (user.energy + 40) },
    ?_, rfl, rfl, rfl, rfl, rfl, rfl, rfl, rfl, rfl, rfl, rfl, rfl, rfl, rfl, ?_⟩
  · unfold rest; rw [hfind]
  · unfold rest; rw [hfind]; rfl

/-- Witness for C5: on a concrete one-player database the hypothesis holds
and resting returns the capped energy 100. -/
theorem rest_spec_witness :
    get_player "alice" wState = some (newPlayer 1 "alice" "h")
    ∧ (rest "alice" wState).2 = .ok 100 := by
  refine ⟨by rfl, ?_⟩
  obtain ⟨p1, h1, -⟩ := rest_spec "alice" wState (newPlayer 1 "alice" "h") (by rfl)
  rw [h1]
  show Except.ok ((newPlayer 1 "alice" "h").max_energy
      ⊓ ((newPlayer 1 "alice" "h").energy + 40)) = Except.ok 100
  exact congrArg Except.ok (by decide)

/-! ### C6: the leveling rule -/

/-- C6: `add_exp` adds exactly `amount` experience, then sets the level to
`1 + (experience // 100)` (Python floor division) exactly when that value
exceeds the current level, raising `max_energy` by 10 when it does; the
level never decreases. -/
theorem add_exp_spec (p : Player) (amount : Int) :
    (add_exp p amount).experience = p.experience + amount
    ∧ (p.level < 1 + Int.fdiv (p.experience + amount) 100 →
        (add_exp p amount).level = 1 + Int.fdiv (p.experience + amount) 100
        ∧ (add_exp p amount).max_energy = p.max_energy + 10)
    ∧ (¬ p.level < 1 + Int.fdiv (p.experience + amount) 100 →
        (add_exp p amount).level = p.level
        ∧ (add_exp p amount).max_energy = p.max_energy)
    ∧ p.level ≤ (add_exp p amount).level := by
  refine ⟨add_exp_experience p amount, ?_, ?_, add_exp_level_le p amount⟩
  · intro h
    simp only [add_exp]
    split
    · exact ⟨rfl, rfl⟩
    · next h2 => exact absurd h h2
  · intro h
    simp only [add_exp]
    split
    · next h2 => exact absurd h2 h
    · exact ⟨rfl, rfl⟩

/-- Witness for C6: a fresh player gaining 150 experience crosses the
level threshold `1 + 150 // 100 = 2` and gains 10 max energy. -/
theorem add_exp_spec_witness :
    (newPlayer 1 "alice" "h").level
        < 1 + Int.fdiv ((newPlayer 1 "alice" "h").experience + 150) 100
    ∧ (add_exp (newPlayer 1 "alice" "h") 150).level
        = 1 + Int.fdiv ((newPlayer 1 "alice" "h").experience + 150) 100
    ∧ (add_exp (newPlayer 1 "alice" "h") 150).max_energy
        = (newPlayer 1 "alice" "h").max_energy + 10 := by
  refine ⟨by decide, ?_, ?_⟩
  · exact ((add_exp_spec (newPlayer 1 "alice" "h") 150).2.1 (by decide)).1
  · exact ((add_exp_spec (newPlayer 1 "alice" "h") 150).2.1 (by decide)).2

/-! ### C4: every HTTP error leaves the persistent state unchanged -/

/-- C4: whenever any endpoint raises an HTTP error (player not found,
insufficient energy, unknown item, insufficient money, username taken,
invalid credentials), the persistent player and inventory state is left
exactly as it was. -/
theorem error_frame :
    (∀ (hashF : String → String) (u pw : String) (s : State) (e : HTTPError),
        (register hashF u pw s).2 = .error e → (register hashF u pw s).1 = s)
    ∧ (∀ (verifyF : String → String → Bool) (u pw : String) (s : State)
          (e : HTTPError),
        (login verifyF u pw s).2 = .error e → (login verifyF u pw s).1 = s)
    ∧ (∀ (u : String) (c : Fin CRIMES.length) (roll : ℚ) (r : Int) (s : State)
          (e : HTTPError),
        (crime u c roll r s).2 = .error e → (crime u c roll r s).1 = s)
    ∧ (∀ (u : String) (s : State) (e : HTTPError),
        (rest u s).2 = .error e → (rest u s).1 = s)
    ∧ (∀ (u iid it : String) (s : State) (e : HTTPError),
        (buy_item u iid it s).2 = .error e → (buy_item u iid it s).1 = s) := by
  refine ⟨?_, ?_, ?_, ?_, ?_⟩
  · intro hashF u pw s e h
    by_cases hc : (s.players.find? (fun p => p.username == u)).isSome
    · simp [register, hc]
    · simp [register, hc] at h
  · intro verifyF u pw s e h
    exact login_fst verifyF u pw s
  · intro u c roll r s e h
    cases hg : get_player u s with
    | none => simp [crime, hg]
    | some user =>
      simp only [crime, hg] at h ⊢
      split at h
      · next he => rw [if_pos he]
      · next he =>
        rw [if_neg he]
        split at h <;> simp at h
  · intro u s e h
    cases hg : get_player u s with
    | none => simp [rest, hg]
    | some user => simp [rest, hg] at h
  · intro u iid it s e h
    cases hg : get_player u s with
    | none => simp [buy_item, hg]
    | some player =>
      simp only [buy_item, hg] at h ⊢
      split at h
      · rfl
      · next item hi =>
        split at h
        · next hm => rw [if_pos hm]
        · next hm => simp at h

/-- Witness for C4: logging in an unknown player on the empty database
raises a 404 and leaves the database untouched. -/
theorem error_frame_witness :
    (login (fun _ _ => Bool.true) "bob" "pw" initState).2
        = .error ⟨404, "Player not found"⟩
    ∧ (login (fun _ _ => Bool.true) "bob" "pw" initState).1 = initState := by
  refine ⟨by rfl, ?_⟩
  exact error_frame.2.1 (fun _ _ => Bool.true) "bob" "pw" initState
    ⟨404, "Player not found"⟩ (by rfl)

/-! ### C1: the crime action -/

/-- C1: when the player's energy covers the selected crime's cost, `crime`
deducts exactly that cost; on a successful roll (`roll ≤ success`, with the
reward drawn from the inclusive reward range) money grows by the reward,
wins by one, experience is added through the leveling rule `add_exp`, and
the response is SUCCESS with the reward; on a failed roll losses grow by
one, the response is FAILED, and money, experience, level, and wins are
unchanged. -/
theorem crime_spec (u : String) (choice : Fin CRIMES.length) (roll : ℚ)
    (reward : Int) (s : State) (user : Player)
    (hfind : get_player u s = some user)
    (henergy : (CRIMES.get choice).energy ≤ user.energy)
    (hlo : (CRIMES.get choice).rewardLo ≤ reward)
    (hhi : reward ≤ (CRIMES.get choice).rewardHi) :
    ∃ p1,
      crime u choice roll reward s =
        (setPlayer s p1,
         .ok (if roll ≤ (CRIMES.get choice).success then .success reward
              else .failed))
      ∧ p1.energy = user.energy - (CRIMES.get choice).energy
      ∧ (roll ≤ (CRIMES.get choice).success →
           p1.money = user.money + reward
           ∧ p1.wins = user.wins + 1
           ∧ p1.losses = user.losses
           ∧ p1 = add_exp { user with
               energy := user.energy - (CRIMES.get choice).energy,
               money := user.money + reward,
               wins := user.wins + 1 } (CRIMES.get choice).exp)
      ∧ (¬ roll ≤ (CRIMES.get choice).success →
           p1.losses = user.losses + 1
           ∧ p1.money = user.money
           ∧ p1.experience = user.experience
           ∧ p1.level = user.level
           ∧ p1.max_energy = user.max_energy
           ∧ p1.wins = user.wins) := by
  by_cases hroll : roll ≤ (CRIMES.get choice).success
  · refine ⟨add_exp { user with
        energy := user.energy - (CRIMES.get choice).energy,
        money := user.money + reward,
        wins := user.wins + 1 } (CRIMES.get choice).exp, ?_, ?_, ?_, ?_⟩
    · simp only [crime, hfind]
      rw [if_neg (not_lt.mpr henergy), if_pos hroll, if_pos hroll]
    · rw [add_exp_energy]
    · intro _
      refine ⟨?_, ?_, ?_, rfl⟩
      · rw [add_exp_money]
      · rw [add_exp_wins]
      · rw [add_exp_losses]
    · intro h; exact absurd hroll h
  · refine ⟨{ user with
        energy := user.energy - (CRIMES.get choice).energy,
        losses := user.losses + 1 }, ?_, rfl, ?_, ?_⟩
    · simp only [crime, hfind]
      rw [if_neg (not_lt.mpr henergy), if_neg hroll, if_neg hroll]
    · intro h; exact absurd h hroll
    · intro _; exact ⟨rfl, rfl, rfl, rfl, rfl, rfl⟩

/-- Witness for C1: a concrete Pickpocket attempt (cost 10, reward 30 in
[20, 50], roll 1/2 ≤ 9/10) succeeds, leaving energy 90, money 130, one
win. -/
theorem crime_spec_witness :
    get_player "alice" wState = some (newPlayer 1 "alice" "h")
    ∧ (CRIMES.get pickpocketIdx).energy ≤ (newPlayer 1 "alice" "h").energy
    ∧ (CRIMES.get pickpocketIdx).rewardLo ≤ 30
    ∧ (30 : Int) ≤ (CRIMES.get pickpocketIdx).rewardHi
    ∧ ∃ p1,
        crime "alice" pickpocketIdx (1/2) 30 wState
          = (setPlayer wState p1, .ok (.success 30))
        ∧ p1.energy = 90 ∧ p1.money = 130 ∧ p1.wins = 1 := by
  refine ⟨by rfl, by decide, by decide, by decide, ?_⟩
  obtain ⟨p1, heq, hen, hs, -⟩ :=
    crime_spec "alice" pickpocketIdx (1/2) 30 wState (newPlayer 1 "alice" "h")
      (by rfl) (by decide) (by decide) (by decide)
  have hroll : (1/2 : ℚ) ≤ (CRIMES.get pickpocketIdx).success := by
    show (1/2 : ℚ) ≤ 9/10
    norm_num
  obtain ⟨hm, hw, -, -⟩ := hs hroll
  refine ⟨p1, ?_, ?_, ?_, ?_⟩
  · rw [heq, if_pos hroll]
  · rw [hen]; decide
  · rw [hm]; norm_num [newPlayer]
  · rw [hw]; rfl

/-! ### C7 and C9: the buy operation -/

/-- Evaluation of a successful purchase: the item is found by the
dispatched lookup and the player can afford it. -/
lemma buy_item_eq (u iid it : String) (s : State) (player : Player)
    (item : Item)
    (hfind : get_player u s = some player)
    (hitem : (if it == "weapon" then WEAPONS iid else ARMOR iid) = some item)
    (hmoney : (item.price : ℚ) ≤ player.money) :
    buy_item u iid it s =
      (setPlayer
        ⟨s.players,
         s.inventory.map (fun r =>
           if r.player_id == player.id && r.item_type == it then
             { r with equipped := false }
           else r) ++ [⟨s.nextInvId, player.id, it, iid, true⟩],
         s.nextPlayerId, s.nextInvId + 1⟩
        { player with money := player.money - item.price },
       .ok ("Bought " ++ item.name)) := by
  simp only [buy_item, hfind, hitem]
  rw [if_neg (not_lt.mpr hmoney)]

/-- C7: a purchase by a player who can afford an item present in the
looked-up catalog decreases money by exactly the price, appends exactly one
new equipped inventory row with the requested item id and type, and changes
no other player field. -/
theorem buy_spec (u iid it : String) (s : State) (player : Player)
    (item : Item)
    (hfind : get_player u s = some player)
    (hitem : (if it == "weapon" then WEAPONS iid else ARMOR iid) = some item)
    (hmoney : (item.price : ℚ) ≤ player.money) :
    ∃ p1,
      (buy_item u iid it s).2 = .ok ("Bought " ++ item.name)
      ∧ (buy_item u iid it s).1.players
          = s.players.map (fun q => if q.id == p1.id then p1 else q)
      ∧ (buy_item u iid it s).1.inventory
          = s.inventory.map (fun r =>
              if r.player_id == player.id && r.item_type == it then
                { r with equipped := false }
              else r) ++ [⟨s.nextInvId, player.id, it, iid, true⟩]
      ∧ (buy_item u iid it s).1.inventory.length = s.inventory.length + 1
      ∧ p1.money = player.money - item.price
      ∧ p1.id = player.id ∧ p1.username = player.username
      ∧ p1.password = player.password
      ∧ p1.energy = player.energy ∧ p1.max_energy = player.max_energy
      ∧ p1.level = player.level ∧ p1.experience = player.experience
      ∧ p1.strength = player.strength ∧ p1.agility = player.agility
      ∧ p1.intelligence = player.intelligence ∧ p1.charisma = player.charisma
      ∧ p1.wins = player.wins ∧ p1.losses = player.losses := by
  have he := buy_item_eq u iid it s player item hfind hitem hmoney
  refine ⟨{ player with money := player.money - item.price },
    ?_, ?_, ?_, ?_, rfl, rfl, rfl, rfl, rfl, rfl, rfl, rfl, rfl, rfl, rfl,
    rfl, rfl, rfl⟩
  · rw [he]
  · rw [he]; rfl
  · rw [he]; rfl
  · rw [he]
    show (List.map _ s.inventory ++ [_]).length = s.inventory.length + 1
    rw [List.length_append, List.length_map]
    rfl

/-- Witness for C7: with 500 money, buying the 200-price brass knuckles as
a weapon succeeds and leaves 300 money. -/
theorem buy_spec_witness :
    get_player "alice" wState2 = some { newPlayer 1 "alice" "h" with money := 500 }
    ∧ (if "weapon" == "weapon" then WEAPONS "brass_knuckles"
       else ARMOR "brass_knuckles") = some ⟨"Brass Knuckles", 200⟩
    ∧ (((200 : Int) : ℚ))
        ≤ ({ newPlayer 1 "alice" "h" with money := 500 } : Player).money
    ∧ (buy_item "alice" "brass_knuckles" "weapon" wState2).2
        = .ok "Bought Brass Knuckles"
    ∧ (buy_item "alice" "brass_knuckles" "weapon" wState2).1.inventory.length
        = 2 := by
  obtain ⟨p1, h1, -, -, h4, -⟩ :=
    buy_spec "alice" "brass_knuckles" "weapon" wState2
      { newPlayer 1 "alice" "h" with money := 500 } ⟨"Brass Knuckles", 200⟩
      (by rfl) (by rfl) (by norm_num)
  exact ⟨by rfl, by rfl, by norm_num, h1, h4⟩

/-- C9: the lookup consults the weapon catalog only when `item_type` is
exactly "weapon" and the armor catalog for every other string, so any
non-"weapon" type paired with a valid armor id buys successfully and the
new equipped inventory row carries that arbitrary type. -/
theorem buy_item_type_dispatch (u iid it : String) (s : State)
    (player : Player) (item : Item)
    (hit : it ≠ "weapon")
    (hfind : get_player u s = some player)
    (hitem : ARMOR iid = some item)
    (hmoney : (item.price : ℚ) ≤ player.money) :
    (buy_item u iid it s).2 = .ok ("Bought " ++ item.name)
    ∧ (buy_item u iid it s).1.inventory
        = s.inventory.map (fun r =>
            if r.player_id == player.id && r.item_type == it then
              { r with equipped := false }
            else r) ++ [⟨s.nextInvId, player.id, it, iid, true⟩] := by
  have hdisp : (if it == "weapon" then WEAPONS iid else ARMOR iid)
      = some item := by
    have hbe : (it == "weapon") = false := by
      simp [hit]
    rw [hbe]
    simpa using hitem
  have he := buy_item_eq u iid it s player item hfind hdisp hmoney
  exact ⟨by rw [he], by rw [he]; rfl⟩

/-- Witness for C9: buying armor id "leather_jacket" under the made-up
type "banana" succeeds and records an equipped "banana" row. -/
theorem buy_item_type_dispatch_witness :
    ("banana" : String) ≠ "weapon"
    ∧ get_player "alice" wState2
        = some { newPlayer 1 "alice" "h" with money := 500 }
    ∧ ARMOR "leather_jacket" = some ⟨"Leather Jacket", 300⟩
    ∧ (buy_item "alice" "leather_jacket" "banana" wState2).2
        = .ok "Bought Leather Jacket"
    ∧ (buy_item "alice" "leather_jacket" "banana" wState2).1.inventory
        = [⟨1, 1, "weapon", "brass_knuckles", true⟩,
           ⟨2, 1, "banana", "leather_jacket", true⟩] := by
  obtain ⟨h1, h2⟩ :=
    buy_item_type_dispatch "alice" "leather_jacket" "banana" wState2
      { newPlayer 1 "alice" "h" with money := 500 } ⟨"Leather Jacket", 300⟩
      (by decide) (by rfl) (by rfl) (by norm_num)
  refine ⟨by decide, by rfl, by rfl, h1, ?_⟩
  rw [h2]
  rfl

/-! ### C10: initial state of a registered player -/

/-- C10: a successfully registered player starts with money 100, energy
100, max_energy 100, level 1, experience 0, all four stats 1, zero wins
and losses, and exactly one inventory row: an equipped weapon
"brass_knuckles". -/
theorem register_defaults (hashF : String → String) (u pw : String)
    (s : State)
    (hfree : s.players.find? (fun p => p.username == u) = none)
    (hfresh : ∀ r ∈ s.inventory, r.player_id ≠ s.nextPlayerId) :
    (register hashF u pw s).2 = .ok "Registered"
    ∧ (register hashF u pw s).1.players
        = s.players ++ [newPlayer s.nextPlayerId u (hashF pw)]
    ∧ (newPlayer s.nextPlayerId u (hashF pw)).money = 100
    ∧ (newPlayer s.nextPlayerId u (hashF pw)).energy = 100
    ∧ (newPlayer s.nextPlayerId u (hashF pw)).max_energy = 100
    ∧ (newPlayer s.nextPlayerId u (hashF pw)).level = 1
    ∧ (newPlayer s.nextPlayerId u (hashF pw)).experience = 0
    ∧ (newPlayer s.nextPlayerId u (hashF pw)).strength = 1
    ∧ (newPlayer s.nextPlayerId u (hashF pw)).agility = 1
    ∧ (newPlayer s.nextPlayerId u (hashF pw)).intelligence = 1
    ∧ (newPlayer s.nextPlayerId u (hashF pw)).charisma = 1
    ∧ (newPlayer s.nextPlayerId u (hashF pw)).wins = 0
    ∧ (newPlayer s.nextPlayerId u (hashF pw)).losses = 0
    ∧ (register hashF u pw s).1.inventory.filter
        (fun r => r.player_id == s.nextPlayerId)
        = [⟨s.nextInvId, s.nextPlayerId, "weapon", "brass_knuckles", true⟩] := by
  refine ⟨?_, ?_, rfl, rfl, rfl, rfl, rfl, rfl, rfl, rfl, rfl, rfl, rfl, ?_⟩
  · simp [register, hfree]
  · simp [register, hfree]
  · have h1 : (register hashF u pw s).1.inventory
        = s.inventory
          ++ [⟨s.nextInvId, s.nextPlayerId, "weapon", "brass_knuckles", true⟩] := by
      simp [register, hfree, newPlayer]
    rw [h1, List.filter_append]
    have h2 : s.inventory.filter (fun r => r.player_id == s.nextPlayerId)
        = [] :=
      List.filter_eq_nil_iff.mpr (fun r hr => by simpa using hfresh r hr)
    rw [h2]
    simp

/-- Witness for C10: registering "alice" on the empty database yields the
default player row and the single equipped brass-knuckles row. -/
theorem register_defaults_witness :
    initState.players.find? (fun p => p.username == "alice") = none
    ∧ (register (fun _ => "h") "alice" "pw" initState).2 = .ok "Registered"
    ∧ (register (fun _ => "h") "alice" "pw" initState).1.players
        = [newPlayer 1 "alice" "h"]
    ∧ (register (fun _ => "h") "alice" "pw" initState).1.inventory.filter
        (fun r => r.player_id == initState.nextPlayerId)
        = [⟨1, 1, "weapon", "brass_knuckles", true⟩] := by
  obtain ⟨h1, h2, -, -, -, -, -, -, -, -, -, -, -, h14⟩ :=
    register_defaults (fun _ => "h") "alice" "pw" initState (by rfl)
      (fun r hr => absurd hr (List.not_mem_nil r))
  exact ⟨by rfl, h1, h2, h14⟩

/-! ### C8: credential hashing round-trip -/

/-- C8: registration stores the hash of the submitted password as the
player's password column; for any hash scheme where verification accepts
the hash of the original password, login with the same password then
succeeds, and login with any password that does not verify against the
stored hash fails with 400 "Invalid credentials". -/
theorem register_login_roundtrip (hashF : String → String)
    (verifyF : String → String → Bool)
    (hcorrect : ∀ p, verifyF p (hashF p) = true)
    (u pw pw2 : String) (s : State)
    (hfree : s.players.find? (fun p => p.username == u) = none)
    (hbad : verifyF pw2 (hashF pw) = false) :
    (register hashF u pw s).1.players
      = s.players ++ [newPlayer s.nextPlayerId u (hashF pw)]
    ∧ (newPlayer s.nextPlayerId u (hashF pw)).password = hashF pw
    ∧ (login verifyF u pw (register hashF u pw s).1).2 = .ok "Login successful"
    ∧ (login verifyF u pw2 (register hashF u pw s).1).2
        = .error ⟨400, "Invalid credentials"⟩ := by
  have hplayers : (register hashF u pw s).1.players
      = s.players ++ [newPlayer s.nextPlayerId u (hashF pw)] := by
    simp [register, hfree]
  have hfind2 : get_player u (register hashF u pw s).1
      = some (newPlayer s.nextPlayerId u (hashF pw)) := by
    unfold get_player
    rw [hplayers, List.find?_append, hfree]
    simp [newPlayer]
  refine ⟨hplayers, rfl, ?_, ?_⟩
  · unfold login
    rw [hfind2]
    simp [newPlayer, hcorrect pw]
  · unfold login
    rw [hfind2]
    simp [newPlayer, hbad]

/-- Witness for C8: with the scheme hash p = "hash:" ++ p, verify p h =
(h == "hash:" ++ p), registering "alice"/"pw" lets "pw" log in and rejects
"wrong". -/
theorem register_login_roundtrip_witness :
    (register (fun p => "hash:" ++ p) "alice" "pw" initState).1.players
      = [newPlayer 1 "alice" "hash:pw"]
    ∧ (login (fun p h => h == "hash:" ++ p) "alice" "pw"
        (register (fun p => "hash:" ++ p) "alice" "pw" initState).1).2
      = .ok "Login successful"
    ∧ (login (fun p h => h == "hash:" ++ p) "alice" "wrong"
        (register (fun p => "hash:" ++ p) "alice" "pw" initState).1).2
      = .error ⟨400, "Invalid credentials"⟩ := by
  obtain ⟨h1, -, h3, h4⟩ :=
    register_login_roundtrip (fun p => "hash:" ++ p)
      (fun p h => h == "hash:" ++ p) (fun p => beq_self_eq_true _)
      "alice" "pw" "wrong" initState (by rfl) (by decide)
  exact ⟨h1, h3, h4⟩

/-! ### Invariant machinery for C2 and C3 -/

lemma crimes_energy_nonneg : ∀ c : Fin CRIMES.length, 0 ≤ (CRIMES.get c).energy := by
  decide

lemma setPlayer_players (s : State) (p : Player) :
    (setPlayer s p).players
      = s.players.map (fun q => if q.id == p.id then p else q) := rfl

lemma energyInv_setPlayer {s : State} {p : Player} (h : EnergyInv s)
    (hp : 0 ≤ p.energy ∧ p.energy ≤ p.max_energy) :
    EnergyInv (setPlayer s p) := by
  intro q hq
  rw [setPlayer_players, List.mem_map] at hq
  obtain ⟨q0, hq0, heq⟩ := hq
  by_cases hid : (q0.id == p.id) = true
  · rw [if_pos hid] at heq; subst heq; exact hp
  · rw [if_neg hid] at heq; subst heq; exact h q0 hq0

lemma idInv_setPlayer {s : State} {p : Player} (h : IdInv s) :
    IdInv (setPlayer s p) := by
  refine ⟨?_, h.2⟩
  intro q hq
  rw [setPlayer_players, List.mem_map] at hq
  obtain ⟨q0, hq0, heq⟩ := hq
  by_cases hid : (q0.id == p.id) = true
  · rw [if_pos hid] at heq; subst heq
    exact (beq_iff_eq.mp hid) ▸ h.1 q0 hq0
  · rw [if_neg hid] at heq; subst heq
    exact h.1 q0 hq0

lemma equipInv_setPlayer {s : State} {p : Player} (h : EquipInv s) :
    EquipInv (setPlayer s p) :=
  fun pid t => h pid t

lemma equippedOf_true {pid : Nat} {t : String} {r : InventoryRow} :
    equippedOf pid t r = true
      ↔ r.player_id = pid ∧ r.item_type = t ∧ r.equipped = true := by
  simp [equippedOf, Bool.and_eq_true, beq_iff_eq, and_assoc]

lemma filter_fresh_nil (l : List InventoryRow) (pid : Nat) (t : String)
    (h : ∀ r ∈ l, r.player_id ≠ pid) : l.filter (equippedOf pid t) = [] := by
  rw [List.filter_eq_nil_iff]
  intro r hr hP
  rw [equippedOf_true] at hP
  exact h r hr hP.1

lemma filter_unequip_self (l : List InventoryRow) (pidB : Nat) (tB : String) :
    (l.map (fun r =>
      if r.player_id == pidB && r.item_type == tB then
        { r with equipped := false }
      else r)).filter (equippedOf pidB tB) = [] := by
  rw [List.filter_eq_nil_iff]
  intro r1 hr1
  rw [List.mem_map] at hr1
  obtain ⟨r, hr, heq⟩ := hr1
  by_cases hcond : (r.player_id == pidB && r.item_type == tB) = true
  · rw [if_pos hcond] at heq; subst heq
    simp [equippedOf]
  · rw [if_neg hcond] at heq; subst heq
    intro hP
    rw [equippedOf_true] at hP
    exact hcond (by simp [hP.1, hP.2.1])

lemma filter_unequip_other (l : List InventoryRow) (pidB : Nat) (tB : String)
    (pid : Nat) (t : String) (hne : ¬(pid = pidB ∧ t = tB)) :
    (l.map (fun r =>
      if r.player_id == pidB && r.item_type == tB then
        { r with equipped := false }
      else r)).filter (equippedOf pid t)
      = l.filter (equippedOf pid t) := by
  induction l with
  | nil => rfl
  | cons a l ih =>
    rw [List.map_cons, List.filter_cons, List.filter_cons]
    by_cases hcond : (a.player_id == pidB && a.item_type == tB) = true
    · rw [if_pos hcond]
      have h1 : equippedOf pid t { a with equipped := false } = false := by
        simp [equippedOf]
      have h2 : equippedOf pid t a = false := by
        apply Bool.eq_false_iff.mpr
        intro htrue
        rw [equippedOf_true] at htrue
        rw [Bool.and_eq_true, beq_iff_eq, beq_iff_eq] at hcond
        exact hne ⟨htrue.1 ▸ hcond.1, htrue.2.1 ▸ hcond.2⟩
      rw [if_neg (Bool.eq_false_iff.mp h1), if_neg (Bool.eq_false_iff.mp h2)]
      exact ih
    · rw [if_neg hcond]
      by_cases hP : equippedOf pid t a = true
      · rw [if_pos hP, ih, if_pos hP]
      · rw [if_neg hP, ih, if_neg hP]

/-! ### Per-operation preservation of the invariants -/

lemma energyInv_register (hashF : String → String) (u pw : String) (s : State)
    (h : EnergyInv s) : EnergyInv (register hashF u pw s).1 := by
  by_cases hc : (s.players.find? (fun p => p.username == u)).isSome = true
  · rw [register_taken hashF u pw s hc]; exact h
  · rw [register_free hashF u pw s hc]
    intro p hp
    rcases List.mem_append.mp hp with h1 | h2
    · exact h p h1
    · rw [List.mem_singleton] at h2; subst h2
      exact ⟨by norm_num [newPlayer], by norm_num [newPlayer]⟩

lemma energyInv_crime (u : String) (c : Fin CRIMES.length) (roll : ℚ)
    (r : Int) (s : State) (h : EnergyInv s) :
    EnergyInv (crime u c roll r s).1 := by
  cases hg : get_player u s with
  | none => rw [crime_notfound u c roll r s hg]; exact h
  | some user =>
    have hu := h user (get_player_mem hg)
    have hce : 0 ≤ (CRIMES.get c).energy := crimes_energy_nonneg c
    by_cases he : user.energy < (CRIMES.get c).energy
    · rw [crime_noenergy u c roll r s user hg he]; exact h
    · by_cases hroll : roll ≤ (CRIMES.get c).success
      · rw [crime_success_eq u c roll r s user hg he hroll]
        apply energyInv_setPlayer h
        constructor
        · rw [add_exp_energy]
          show 0 ≤ user.energy - (CRIMES.get c).energy
          omega
        · rw [add_exp_energy]
          refine le_trans ?_ (add_exp_max_energy_le _ _)
          show user.energy - (CRIMES.get c).energy ≤ user.max_energy
          omega
      · rw [crime_failed_eq u c roll r s user hg he hroll]
        apply energyInv_setPlayer h
        constructor
        · show 0 ≤ user.energy - (CRIMES.get c).energy
          omega
        · show user.energy - (CRIMES.get c).energy ≤ user.max_energy
          omega

lemma energyInv_rest (u : String) (s : State) (h : EnergyInv s) :
    EnergyInv (rest u s).1 := by
  cases hg : get_player u s with
  | none => rw [rest_notfound u s hg]; exact h
  | some user =>
    have hu := h user (get_player_mem hg)
    rw [rest_eq u s user hg]
    apply energyInv_setPlayer h
    constructor
    · show 0 ≤ min user.max_energy (user.energy + 40)
      refine le_min ?_ ?_ <;> omega
    · show min user.max_energy (user.energy + 40) ≤ user.max_energy
      exact min_le_left _ _

lemma energyInv_buy (u iid it : String) (s : State) (h : EnergyInv s) :
    EnergyInv (buy_item u iid it s).1 := by
  cases hg : get_player u s with
  | none => rw [buy_notfound u iid it s hg]; exact h
  | some player =>
    cases hi : (if it == "weapon" then WEAPONS iid else ARMOR iid) with
    | none => rw [buy_noitem u iid it s player hg hi]; exact h
    | some item =>
      by_cases hm : player.money < (item.price : ℚ)
      · rw [buy_nomoney u iid it s player item hg hi hm]; exact h
      · rw [buy_item_eq u iid it s player item hg hi (not_lt.mp hm)]
        apply energyInv_setPlayer (fun q hq => h q hq)
        exact h player (get_player_mem hg)

lemma idInv_register (hashF : String → String) (u pw : String) (s : State)
    (h : IdInv s) : IdInv (register hashF u pw s).1 := by
  by_cases hc : (s.players.find? (fun p => p.username == u)).isSome = true
  · rw [register_taken hashF u pw s hc]; exact h
  · rw [register_free hashF u pw s hc]
    refine ⟨?_, ?_⟩
    · intro p hp
      rcases List.mem_append.mp hp with h1 | h2
      · exact Nat.lt_succ_of_lt (h.1 p h1)
      · rw [List.mem_singleton] at h2; subst h2
        exact Nat.lt_succ_self _
    · intro r hr
      rcases List.mem_append.mp hr with h1 | h2
      · exact Nat.lt_succ_of_lt (h.2 r h1)
      · rw [List.mem_singleton] at h2; subst h2
        exact Nat.lt_succ_self _

lemma idInv_crime (u : String) (c : Fin CRIMES.length) (roll : ℚ) (r : Int)
    (s : State) (h : IdInv s) : IdInv (crime u c roll r s).1 := by
  cases hg : get_player u s with
  | none => rw [crime_notfound u c roll r s hg]; exact h
  | some user =>
    by_cases he : user.energy < (CRIMES.get c).energy
    · rw [crime_noenergy u c roll r s user hg he]; exact h
    · by_cases hroll : roll ≤ (CRIMES.get c).success
      · rw [crime_success_eq u c roll r s user hg he hroll]
        exact idInv_setPlayer h
      · rw [crime_failed_eq u c roll r s user hg he hroll]
        exact idInv_setPlayer h

lemma idInv_rest (u : String) (s : State) (h : IdInv s) :
    IdInv (rest u s).1 := by
  cases hg : get_player u s with
  | none => rw [rest_notfound u s hg]; exact h
  | some user =>
    rw [rest_eq u s user hg]
    exact idInv_setPlayer h

lemma idInv_buy (u iid it : String) (s : State) (h : IdInv s) :
    IdInv (buy_item u iid it s).1 := by
  cases hg : get_player u s with
  | none => rw [buy_notfound u iid it s hg]; exact h
  | some player =>
    cases hi : (if it == "weapon" then WEAPONS iid else ARMOR iid) with
    | none => rw [buy_noitem u iid it s player hg hi]; exact h
    | some item =>
      by_cases hm : player.money < (item.price : ℚ)
      · rw [buy_nomoney u iid it s player item hg hi hm]; exact h
      · rw [buy_item_eq u iid it s player item hg hi (not_lt.mp hm)]
        apply idInv_setPlayer
        refine ⟨fun q hq => h.1 q hq, ?_⟩
        intro r1 hr1
        rcases List.mem_append.mp hr1 with h1 | h2
        · rw [List.mem_map] at h1
          obtain ⟨r0, hr0, heq⟩ := h1
          by_cases hcond : (r0.player_id == player.id && r0.item_type == it) = true
          · rw [if_pos hcond] at heq; subst heq
            exact h.2 r0 hr0
          · rw [if_neg hcond] at heq; subst heq
            exact h.2 r0 hr0
        · rw [List.mem_singleton] at h2; subst h2
          exact h.1 player (get_player_mem hg)

lemma equipInv_register (hashF : String → String) (u pw : String) (s : State)
    (hinvid : ∀ r ∈ s.inventory, r.player_id < s.nextPlayerId)
    (h : EquipInv s) : EquipInv (register hashF u pw s).1 := by
  by_cases hc : (s.players.find? (fun p => p.username == u)).isSome = true
  · rw [register_taken hashF u pw s hc]; exact h
  · rw [register_free hashF u pw s hc]
    intro pid t
    show ((s.inventory
        ++ [(⟨s.nextInvId, s.nextPlayerId, "weapon", "brass_knuckles",
              true⟩ : InventoryRow)]).filter
          (equippedOf pid t)).length ≤ 1
    rw [List.filter_append, List.length_append]
    by_cases hpid : pid = s.nextPlayerId
    · rw [filter_fresh_nil s.inventory pid t
        (fun r hr => by rw [hpid]; exact Nat.ne_of_lt (hinvid r hr))]
      rw [List.length_nil, Nat.zero_add]
      exact List.length_filter_le _ _
    · have hrow : equippedOf pid t
          ⟨s.nextInvId, s.nextPlayerId, "weapon", "brass_knuckles", true⟩
          = false := by
        apply Bool.eq_false_iff.mpr
        intro htrue
        rw [equippedOf_true] at htrue
        exact hpid htrue.1.symm
      have hnil : ([(⟨s.nextInvId, s.nextPlayerId, "weapon", "brass_knuckles",
          true⟩ : InventoryRow)].filter (equippedOf pid t)) = [] := by
        rw [List.filter_cons, if_neg (Bool.eq_false_iff.mp hrow)]
        rfl
      rw [hnil, List.length_nil, Nat.add_zero]
      exact h pid t

lemma equipInv_crime (u : String) (c : Fin CRIMES.length) (roll : ℚ) (r : Int)
    (s : State) (h : EquipInv s) : EquipInv (crime u c roll r s).1 := by
  cases hg : get_player u s with
  | none => rw [crime_notfound u c roll r s hg]; exact h
  | some user =>
    by_cases he : user.energy < (CRIMES.get c).energy
    · rw [crime_noenergy u c roll r s user hg he]; exact h
    · by_cases hroll : roll ≤ (CRIMES.get c).success
      · rw [crime_success_eq u c roll r s user hg he hroll]
        exact equipInv_setPlayer h
      · rw [crime_failed_eq u c roll r s user hg he hroll]
        exact equipInv_setPlayer h

lemma equipInv_rest (u : String) (s : State) (h : EquipInv s) :
    EquipInv (rest u s).1 := by
  cases hg : get_player u s with
  | none => rw [rest_notfound u s hg]; exact h
  | some user =>
    rw [rest_eq u s user hg]
    exact equipInv_setPlayer h

lemma equipInv_buy (u iid it : String) (s : State) (h : EquipInv s) :
    EquipInv (buy_item u iid it s).1 := by
  cases hg : get_player u s with
  | none => rw [buy_notfound u iid it s hg]; exact h
  | some player =>
    cases hi : (if it == "weapon" then WEAPONS iid else ARMOR iid) with
    | none => rw [buy_noitem u iid it s player hg hi]; exact h
    | some item =>
      by_cases hm : player.money < (item.price : ℚ)
      · rw [buy_nomoney u iid it s player item hg hi hm]; exact h
      · rw [buy_item_eq u iid it s player item hg hi (not_lt.mp hm)]
        intro pid t
        show ((s.inventory.map (fun (r : InventoryRow) =>
            if r.player_id == player.id && r.item_type == it then
              { r with equipped := false }
            else r)
          ++ [(⟨s.nextInvId, player.id, it, iid, true⟩ : InventoryRow)]).filter
            (equippedOf pid t)).length ≤ 1
        rw [List.filter_append, List.length_append]
        by_cases hkey : pid = player.id ∧ t = it
        · obtain ⟨h1, h2⟩ := hkey
          subst h1; subst h2
          rw [filter_unequip_self]
          rw [List.length_nil, Nat.zero_add]
          exact List.length_filter_le _ _
        · rw [filter_unequip_other s.inventory player.id it pid t hkey]
          have hrow : equippedOf pid t ⟨s.nextInvId, player.id, it, iid, true⟩
              = false := by
            apply Bool.eq_false_iff.mpr
            intro htrue
            rw [equippedOf_true] at htrue
            exact hkey ⟨htrue.1.symm, htrue.2.1.symm⟩
          have hnil : ([(⟨s.nextInvId, player.id, it, iid,
              true⟩ : InventoryRow)].filter (equippedOf pid t)) = [] := by
            rw [List.filter_cons, if_neg (Bool.eq_false_iff.mp hrow)]
            rfl
          rw [hnil, List.length_nil, Nat.add_zero]
          exact h pid t

lemma inv_init : Inv initState := by
  refine ⟨⟨?_, ?_⟩, ?_, ?_⟩
  · intro p hp; exact absurd hp (List.not_mem_nil p)
  · intro r hr; exact absurd hr (List.not_mem_nil r)
  · intro p hp; exact absurd hp (List.not_mem_nil p)
  · intro pid t; exact Nat.zero_le 1

lemma inv_preserve_register (hashF : String → String) (u pw : String)
    (s : State) (h : Inv s) : Inv (register hashF u pw s).1 :=
  ⟨idInv_register hashF u pw s h.1,
   energyInv_register hashF u pw s h.2.1,
   equipInv_register hashF u pw s h.1.2 h.2.2⟩

lemma inv_preserve_login (verifyF : String → String → Bool) (u pw : String)
    (s : State) (h : Inv s) : Inv (login verifyF u pw s).1 := by
  rw [login_fst]; exact h

lemma inv_preserve_crime (u : String) (c : Fin CRIMES.length) (roll : ℚ)
    (r : Int) (s : State) (h : Inv s) : Inv (crime u c roll r s).1 :=
  ⟨idInv_crime u c roll r s h.1,
   energyInv_crime u c roll r s h.2.1,
   equipInv_crime u c roll r s h.2.2⟩

lemma inv_preserve_rest (u : String) (s : State) (h : Inv s) :
    Inv (rest u s).1 :=
  ⟨idInv_rest u s h.1, energyInv_rest u s h.2.1, equipInv_rest u s h.2.2⟩

lemma inv_preserve_buy (u iid it : String) (s : State) (h : Inv s) :
    Inv (buy_item u iid it s).1 :=
  ⟨idInv_buy u iid it s h.1,
   energyInv_buy u iid it s h.2.1,
   equipInv_buy u iid it s h.2.2⟩

/-- Every reachable database state satisfies the combined invariant. -/
lemma reachable_inv (s : State) (h : Reachable s) : Inv s := by
  induction h with
  | init => exact inv_init
  | step_register hashF u pw hs ih => exact inv_preserve_register _ _ _ _ ih
  | step_login verifyF u pw hs ih => exact inv_preserve_login _ _ _ _ ih
  | step_crime u c roll r hs ih => exact inv_preserve_crime _ _ _ _ _ ih
  | step_rest u hs ih => exact inv_preserve_rest _ _ ih
  | step_buy u iid it hs ih => exact inv_preserve_buy _ _ _ _ ih

/-! ### C2: the equip-slot invariant -/

/-- C2: in every reachable state, at most one inventory item of a given
item type is equipped per player — holding for a freshly registered player
and preserved by every buy (which unequips the player's existing rows of
the purchased type before adding the new equipped row). -/
theorem equip_slot_invariant (s : State) (h : Reachable s) : EquipInv s :=
  (reachable_inv s h).2.2

/-- Witness for C2: a reachable state built by registering "alice" and
then posting a buy has at most one equipped "armor" row for player 1. -/
theorem equip_slot_invariant_witness :
    equipCount (buy_item "alice" "leather_jacket" "armor"
      (register (fun p => p) "alice" "pw" initState).1).1 1 "armor" ≤ 1 :=
  equip_slot_invariant _
    (Reachable.step_buy "alice" "leather_jacket" "armor"
      (Reachable.step_register (fun p => p) "alice" "pw" Reachable.init))
    1 "armor"

/-! ### C3: the energy cap invariant -/

/-- C3: in every reachable state every player satisfies
`0 ≤ energy ≤ max_energy`, and each of register, crime, rest, and buy
preserves this bound (including the `max_energy` increase on level-up). -/
theorem energy_cap_invariant :
    (∀ s, Reachable s → EnergyInv s)
    ∧ (∀ (hashF : String → String) (u pw : String) (s : State),
        EnergyInv s → EnergyInv (register hashF u pw s).1)
    ∧ (∀ (u : String) (c : Fin CRIMES.length) (roll : ℚ) (r : Int) (s : State),
        EnergyInv s → EnergyInv (crime u c roll r s).1)
    ∧ (∀ (u : String) (s : State), EnergyInv s → EnergyInv (rest u s).1)
    ∧ (∀ (u iid it : String) (s : State),
        EnergyInv s → EnergyInv (buy_item u iid it s).1) :=
  ⟨fun s h => (reachable_inv s h).2.1,
   energyInv_register, energyInv_crime, energyInv_rest, energyInv_buy⟩

/-- Witness for C3: in the reachable state after registering "alice", the
fresh player's energy lies within `[0, max_energy]`. -/
theorem energy_cap_invariant_witness :
    0 ≤ (newPlayer 1 "alice" "h").energy
    ∧ (newPlayer 1 "alice" "h").energy ≤ (newPlayer 1 "alice" "h").max_energy := by
  have hmem : newPlayer 1 "alice" "h"
      ∈ (register (fun _ => "h") "alice" "pw" initState).1.players := by
    rw [register_free (fun _ => "h") "alice" "pw" initState (by decide)]
    exact List.mem_append.mpr (Or.inr (List.mem_singleton.mpr rfl))
  exact energy_cap_invariant.1 _
    (Reachable.step_register (fun _ => "h") "alice" "pw" Reachable.init)
    _ hmem

end CityOfSyndicates
